import Mathlib

/-!
Verification development for the u2f-hid-rs device-lifecycle and
operation-orchestration engine.

The Rust sources embedded here are `src/util.rs` (error helpers, the
`Signed` trait, `from_unix_result`, and the single-shot `OnceCallback`)
and `src/linux/mod.rs` (the `PlatformManager` orchestrator with its
`register`, `sign`, `send_apdu` and `cancel` entry points).

Parts of the crate referenced by `linux/mod.rs` but whose source files
are not part of this repository snapshot (`runloop.rs`, `monitor.rs`,
`devicemap.rs`, the protocol codec `u2f.rs`) are modelled from the
specification at their interface boundary and are marked as such.

Conventions: Rust `io::Result<Vec<u8>>` becomes
`Except IOError (List Nat)`; byte vectors become `List Nat`; machine
integers become `Int` (i32) or `Nat` (usize) with explicit two's
complement reinterpretation where the source casts between them.
-/

/-- Model of `std::io::Error` restricted to the two constructors the
crate uses: `io::Error::from_raw_os_error(errno)` and
`io::Error::new(io::ErrorKind::Other, msg)`. -/
inductive IOError where
  | fromRawOsError (errno : Int)
  | other (msg : String)
deriving DecidableEq, Repr

/-- `util.rs` line 65: `io_err(msg)` builds an `ErrorKind::Other` error
carrying the message. -/
def io_err (msg : String) : IOError := IOError.other msg

/-- The `Signed` trait of `util.rs` line 17: a single method
`is_negative`. -/
structure Signed (α : Type) where
  is_negative : α → Bool

/-- `impl Signed for i32` (`util.rs` line 21): `*self < 0`, with i32
values modelled as integers. -/
def signedI32 : Signed Int :=
  ⟨fun v => decide (v < 0)⟩

/-- The Rust cast `v as isize` for a `usize` value, on a word of width
`w` bits: values below `2^(w-1)` are unchanged, values at or above it
wrap to `v - 2^w` (two's complement reinterpretation). -/
def usizeAsIsize (w : Nat) (v : Nat) : Int :=
  if v < 2 ^ (w - 1) then (v : Int) else (v : Int) - 2 ^ w

/-- `impl Signed for usize` (`util.rs` line 27):
`(*self as isize) < (0 as isize)`, parametrised by the word width. -/
def signedUsize (w : Nat) : Signed Nat :=
  ⟨fun v => decide (usizeAsIsize w v < 0)⟩

/-- `util.rs` line 34: `from_unix_result(rv)` returns
`Err(io::Error::from_raw_os_error(errno))` when `rv.is_negative()` and
`Ok(rv)` otherwise. The current OS errno is passed explicitly since the
embedding is pure. -/
def from_unix_result {α : Type} (S : Signed α) (errno : Int) (rv : α) :
    Except IOError α :=
  if S.is_negative rv then Except.error (IOError.fromRawOsError errno)
  else Except.ok rv

/-!
## OnceCallback (`util.rs` lines 75-102)

The Rust struct holds `Arc<Mutex<Option<Callback>>>`. All clones share
the same `Arc`ed slot (`impl Clone` line 98 clones the `Arc`, not the
contents), so a sequence of `call` invocations through any set of
cloned handles reduces to a sequence of operations on one slot. The
state records whether the slot still holds the handler and, as
observable history, the list of arguments the wrapped handler was
actually invoked with. Each `call` is given a flag telling whether
`self.callback.lock()` returned `Err` (the mutex was poisoned); in that
case the `if let Ok` at line 90 falls through and nothing happens.
-/

/-- Shared slot of an `OnceCallback`: whether the handler is still
present, and the invocations of the wrapped handler so far. -/
structure OnceCallback where
  slot : Bool
  invoked : List (Except IOError (List Nat))
deriving Repr

/-- `OnceCallback::new` (`util.rs` line 80): the slot holds the handler,
nothing has been invoked. -/
def OnceCallback.new : OnceCallback :=
  ⟨true, []⟩

/-- `OnceCallback::call` (`util.rs` line 89): if the lock is acquired
and `take()` yields the handler, invoke it with `rv`; otherwise do
nothing. -/
def OnceCallback.call (poisoned : Bool) (rv : Except IOError (List Nat))
    (s : OnceCallback) : OnceCallback :=
  if poisoned then s
  else if s.slot then ⟨false, s.invoked ++ [rv]⟩
  else s

/-- Run a sequence of `call` invocations (each tagged with whether it
found the lock poisoned) against the shared slot, in order. Clones all
reference the same slot, so any interleaving of calls through any
handles is some such sequence. -/
def OnceCallback.runCalls (s : OnceCallback)
    (calls : List (Bool × Except IOError (List Nat))) : OnceCallback :=
  calls.foldl (fun st c => OnceCallback.call c.1 c.2 st) s

/-!
## Hotplug events and the Device Registry

`linux/devicemap.rs` and `linux/monitor.rs` are not part of this
repository snapshot; their interface is modelled from the
specification. Devices are identified by a natural number.
-/

/-- Modelled from the spec: a Hotplug Event is the tagged union
`{Add(identity), Remove(identity)}` produced by the Monitor (spec §3,
§4.2); `monitor.rs` is not under src/. -/
inductive Event where
  | add (id : Nat)
  | remove (id : Nat)
deriving DecidableEq, Repr

/-- Modelled from the spec: `DeviceMap::process_event` (spec §4.3) — on
Add, store the device under its identity (idempotent if already
present); on Remove, remove it if present (no-op otherwise);
`devicemap.rs` is not under src/. The registry is the list of device
identities in insertion order (iteration order is unspecified by the
spec; correctness must not depend on it). -/
def processEvent (reg : List Nat) (e : Event) : List Nat :=
  match e with
  | Event.add id => if id ∈ reg then reg else reg ++ [id]
  | Event.remove id => reg.erase id

/-- Drain a batch of Monitor events into the registry, in order
(`for event in monitor.events() { devices.process_event(event) }`,
`linux/mod.rs` lines 46-48). -/
def processEvents (reg : List Nat) (es : List Event) : List Nat :=
  es.foldl processEvent reg

/-!
## The operation body (`linux/mod.rs` lines 38-63, 88-138, 154-176)

The three operation bodies share one skeleton differing only in the
protocol exchange invoked per device (`u2f_register`, `u2f_sign`,
`send_apdu` — the codec `u2f.rs` is an external collaborator, modelled
as an opaque fallible function). The body runs against an environment
giving, per retry pass `n`: the events `monitor.events()` yields, the
result of the exchange on each device, and the value of `alive()` at
the start of the pass.
-/

/-- Environment a body runs against. `monitorNew` is the result of
`Monitor::new()` (spec §4.2: may fail with a transport-level error);
`events n` is the batch drained at pass `n`; `exchange n d` the protocol
exchange result for device `d` during pass `n`; `alive n` the value of
the `alive()` predicate checked at the head of pass `n`. -/
structure BodyEnv where
  monitorNew : Except IOError Unit
  events : Nat → List Event
  exchange : Nat → Nat → Except IOError (List Nat)
  alive : Nat → Bool

/-- Observable steps the body performs, in order: draining one batch of
events, attempting the exchange on one device, sleeping between passes,
and delivering a result through the callback. -/
inductive BodyAction where
  | drain (es : List Event)
  | attempt (dev : Nat)
  | sleepMs (ms : Nat)
  | deliver (r : Except IOError (List Nat))
deriving Repr

/-- The inner device loop: result of the first device whose exchange
returns `Ok`, scanning the registry in order
(`for device in devices.values_mut() { if let Ok(bytes) = ... }`). -/
def firstSuccess (exch : Nat → Except IOError (List Nat)) :
    List Nat → Option (Nat × List Nat)
  | [] => none
  | d :: ds =>
    match exch d with
    | Except.ok bytes => some (d, bytes)
    | Except.error _ => firstSuccess exch ds

/-- The devices the inner loop actually attempts: every device up to and
including the first success, or the whole registry when none succeeds. -/
def attemptsOf (exch : Nat → Except IOError (List Nat)) :
    List Nat → List Nat
  | [] => []
  | d :: ds =>
    match exch d with
    | Except.ok _ => [d]
    | Except.error _ => d :: attemptsOf exch ds

/-- The `while alive()` loop of the body, from pass `n` with registry
`reg`, producing the trace of actions and the result delivered through
the callback (`none` when the supplied fuel ran out with `alive()`
still true — the real loop would keep running). Mirrors
`linux/mod.rs` lines 44-62: check `alive()`; drain events; try each
device, delivering and returning on the first `Ok`; otherwise sleep
100 ms and repeat; on `alive()` false deliver the
cancelled-or-timed-out failure. -/
def runFromPass (env : BodyEnv) (reg : List Nat) (n : Nat) :
    Nat → List BodyAction × Option (Except IOError (List Nat))
  | 0 => ([], none)
  | fuel + 1 =>
    if env.alive n then
      let es := env.events n
      let reg2 := processEvents reg es
      match firstSuccess (env.exchange n) reg2 with
      | some (_, bytes) =>
        (BodyAction.drain es ::
           (attemptsOf (env.exchange n) reg2).map BodyAction.attempt ++
           [BodyAction.deliver (Except.ok bytes)],
         some (Except.ok bytes))
      | none =>
        let rest := runFromPass env reg2 (n + 1) fuel
        (BodyAction.drain es ::
           (attemptsOf (env.exchange n) reg2).map BodyAction.attempt ++
           BodyAction.sleepMs 100 :: rest.1,
         rest.2)
    else
      ([BodyAction.deliver (Except.error (io_err "cancelled or timed out"))],
       some (Except.error (io_err "cancelled or timed out")))

/-- The whole body: construct the registry and the Monitor; if
`Monitor::new()` fails, deliver the failure and return at once
(`try_or!(Monitor::new(), |e| { callback.call(Err(e)); })`,
`linux/mod.rs` line 40); otherwise enter the retry loop with an empty
registry. -/
def runBody (env : BodyEnv) (fuel : Nat) :
    List BodyAction × Option (Except IOError (List Nat)) :=
  match env.monitorNew with
  | Except.error e =>
    ([BodyAction.deliver (Except.error e)], some (Except.error e))
  | Except.ok _ => runFromPass env [] 0 fuel

/-- The results delivered through the callback along a trace. -/
def deliversOf : List BodyAction → List (Except IOError (List Nat))
  | [] => []
  | BodyAction.deliver r :: rest => r :: deliversOf rest
  | _ :: rest => deliversOf rest

/-- Modelled from the spec: the Run-Loop aliveness predicate (spec
§4.4) — true while neither cancellation has been requested nor the
deadline has elapsed; `runloop.rs` is not under src/. -/
def aliveOf (cancelRequested : Bool) (elapsedMs timeoutMs : Nat) : Bool :=
  !cancelRequested && decide (elapsedMs < timeoutMs)

/-!
## The sign body's per-device call (`linux/mod.rs` lines 99-131)

The active code of the sign loop is exactly
`if let Ok(bytes) = u2f_sign(device, &challenge, &application,
&key_handle) { callback.call(Ok(bytes)); return; }` — the key-handle
pre-validation block (lines 101-111, 123-130) is commented out.
`signCalls` records the argument tuples actually passed to `u2f_sign`
while scanning the registry.
-/

/-- The exchange the sign body performs on one device: `u2f_sign`
applied directly to the caller-supplied challenge, application and
key handle. -/
def signExchangeOf
    (u2fSign : Nat → List Nat → List Nat → List Nat →
      Except IOError (List Nat))
    (challenge application key_handle : List Nat) (d : Nat) :
    Except IOError (List Nat) :=
  u2fSign d challenge application key_handle

/-- The calls to `u2f_sign` made by one pass of the sign loop, each
recorded with the full argument tuple, stopping after the first
success. -/
def signCalls
    (u2fSign : Nat → List Nat → List Nat → List Nat →
      Except IOError (List Nat))
    (challenge application key_handle : List Nat) :
    List Nat → List (Nat × List Nat × List Nat × List Nat)
  | [] => []
  | d :: ds =>
    match u2fSign d challenge application key_handle with
    | Except.ok _ => [(d, challenge, application, key_handle)]
    | Except.error _ =>
      (d, challenge, application, key_handle) ::
        signCalls u2fSign challenge application key_handle ds

/-!
## The orchestrator (`linux/mod.rs` `PlatformManager`)

The source struct holds `thread: Option<RunLoop>`. The model keeps, as
observable history, the state of every Run-Loop ever created (indexed
by creation order), so single-flight can be stated. `RunLoop::cancel`
is modelled from the spec (§4.4: it blocks until the background context
has fully exited — a strict join; `runloop.rs` is not under src/): once
`cancel` returns, that loop is in the `stopped` state. -/

/-- State of one Run-Loop: still running, or fully stopped (joined). -/
inductive RLState where
  | running
  | stopped
deriving DecidableEq, Repr

/-- Orchestrator state: `thread` is the stored handle
(`PlatformManager { thread: Option<RunLoop> }`, identified by creation
index), `loops` the state of every Run-Loop created so far. -/
structure PlatformManager where
  thread : Option Nat
  loops : List RLState
deriving DecidableEq, Repr

/-- `PlatformManager::new` (`linux/mod.rs` line 21): no stored thread. -/
def PlatformManager.new : PlatformManager :=
  ⟨none, []⟩

/-- `PlatformManager::cancel` (`linux/mod.rs` line 187):
`if let Some(thread) = self.thread.take() { thread.cancel(); }` — take
the stored handle and block until that Run-Loop has fully stopped. -/
def PlatformManager.cancel (s : PlatformManager) : PlatformManager :=
  match s.thread with
  | some t => ⟨none, s.loops.set t RLState.stopped⟩
  | none => s

/-- Shared tail of the three entry points: after the initial
`self.cancel()`, construct the Run-Loop; on success store it
(`self.thread = Some(...)`), on failure deliver through the cloned
callback and leave no thread stored (`try_or!` returns from the
function; `self.thread` was already emptied by `cancel`). `rlOk` tells
whether `RunLoop::new` succeeded. -/
def PlatformManager.storeRunLoop (s : PlatformManager) (rlOk : Bool) :
    PlatformManager :=
  if rlOk then ⟨some s.loops.length, s.loops ++ [RLState.running]⟩
  else s

/-- `PlatformManager::register` (`linux/mod.rs` line 25): first
`self.cancel()`, then construct and store the new Run-Loop. -/
def PlatformManager.register (s : PlatformManager) (rlOk : Bool) :
    PlatformManager :=
  PlatformManager.storeRunLoop (PlatformManager.cancel s) rlOk

/-- `PlatformManager::sign` (`linux/mod.rs` line 74): same skeleton. -/
def PlatformManager.sign (s : PlatformManager) (rlOk : Bool) :
    PlatformManager :=
  PlatformManager.storeRunLoop (PlatformManager.cancel s) rlOk

/-- `PlatformManager::send_apdu` (`linux/mod.rs` line 148): same
skeleton. -/
def PlatformManager.send_apdu (s : PlatformManager) (rlOk : Bool) :
    PlatformManager :=
  PlatformManager.storeRunLoop (PlatformManager.cancel s) rlOk

/-- One caller-visible operation on the orchestrator. -/
inductive OpKind where
  | reg (rlOk : Bool)
  | sg (rlOk : Bool)
  | apdu (rlOk : Bool)
  | cnl
deriving DecidableEq, Repr

/-- Apply one operation to the orchestrator state. -/
def PlatformManager.step (s : PlatformManager) : OpKind → PlatformManager
  | OpKind.reg ok => PlatformManager.register s ok
  | OpKind.sg ok => PlatformManager.sign s ok
  | OpKind.apdu ok => PlatformManager.send_apdu s ok
  | OpKind.cnl => PlatformManager.cancel s

/-- Run a sequence of operations from a fresh orchestrator. -/
def PlatformManager.runOps (ops : List OpKind) : PlatformManager :=
  ops.foldl PlatformManager.step PlatformManager.new

/-- The deliveries a `register`/`sign`/`send_apdu` call causes through
the callback: when `RunLoop::new` fails, exactly the
`couldn\x27t create runloop` failure via the cloned handle
(`linux/mod.rs` lines 67-70); when it succeeds, whatever the body
delivers. -/
def registerDeliveries (rlOk : Bool) (env : BodyEnv) (fuel : Nat) :
    List (Except IOError (List Nat)) :=
  if rlOk then deliversOf (runBody env fuel).1
  else [Except.error (io_err "couldn\x27t create runloop")]

/-- Two exchange results with the same success/failure shape: both `Ok`
with the same payload, or both `Err` — the error values may differ. The
body is insensitive to error values exactly when its behaviour is
invariant under this relation. -/
def sameShape (x y : Except IOError (List Nat)) : Prop :=
  (∃ b, x = Except.ok b ∧ y = Except.ok b) ∨
  (∃ e1 e2, x = Except.error e1 ∧ y = Except.error e2)

/-- Well-formedness of the orchestrator state: the stored handle (if
any) indexes a created loop, and every loop still running is the stored
one — the single-flight invariant. -/
def PlatformManager.Wf (s : PlatformManager) : Prop :=
  (∀ t, s.thread = some t → t < s.loops.length) ∧
  (∀ i, s.loops[i]? = some RLState.running → s.thread = some i)

theorem OnceCallback.call_slot_false (p : Bool)
    (rv : Except IOError (List Nat)) (inv : List (Except IOError (List Nat))) :
    OnceCallback.call p rv ⟨false, inv⟩ = ⟨false, inv⟩ := by
  cases p <;> simp [OnceCallback.call]

theorem OnceCallback.call_poisoned (rv : Except IOError (List Nat))
    (s : OnceCallback) : OnceCallback.call true rv s = s := by
  simp [OnceCallback.call]

theorem OnceCallback.call_unpoisoned_full (rv : Except IOError (List Nat))
    (inv : List (Except IOError (List Nat))) :
    OnceCallback.call false rv ⟨true, inv⟩ = ⟨false, inv ++ [rv]⟩ := by
  simp [OnceCallback.call]

theorem OnceCallback.runCalls_slot_false
    (calls : List (Bool × Except IOError (List Nat)))
    (inv : List (Except IOError (List Nat))) :
    OnceCallback.runCalls ⟨false, inv⟩ calls = ⟨false, inv⟩ := by
  induction calls with
  | nil => rfl
  | cons c rest ih =>
      unfold OnceCallback.runCalls at ih ⊢
      simp only [List.foldl_cons, OnceCallback.call_slot_false, ih]

/-- Helper: the state reached from a full slot by a sequence of calls.
The handler fires on the first call that does not find the lock
poisoned, with that call's argument; everything afterwards is a no-op. -/
theorem OnceCallback.runCalls_slot_true
    (calls : List (Bool × Except IOError (List Nat)))
    (inv : List (Except IOError (List Nat))) :
    OnceCallback.runCalls ⟨true, inv⟩ calls =
      match calls.find? (fun c => !c.1) with
      | some c => ⟨false, inv ++ [c.2]⟩
      | none => ⟨true, inv⟩ := by
  induction calls generalizing inv with
  | nil => rfl
  | cons c rest ih =>
      rcases c with ⟨p, rv⟩
      unfold OnceCallback.runCalls
      simp only [List.foldl_cons]
      cases p with
      | false =>
          rw [OnceCallback.call_unpoisoned_full]
          have h := OnceCallback.runCalls_slot_false rest (inv ++ [rv])
          unfold OnceCallback.runCalls at h
          rw [h]
          simp [List.find?]
      | true =>
          rw [OnceCallback.call_poisoned]
          have h := ih inv
          unfold OnceCallback.runCalls at h
          rw [h]
          simp [List.find?]

/-! ## Lemmas on the inner device loop -/

theorem firstSuccess_eq_none_of_all_fail
    (exch : Nat → Except IOError (List Nat)) (l : List Nat)
    (h : ∀ x ∈ l, ∃ e, exch x = Except.error e) :
    firstSuccess exch l = none := by
  induction l with
  | nil => rfl
  | cons d ds ih =>
      obtain ⟨e, he⟩ := h d (List.mem_cons_self d ds)
      unfold firstSuccess
      rw [he]
      exact ih (fun x hx => h x (List.mem_cons_of_mem d hx))

theorem attemptsOf_eq_self_of_all_fail
    (exch : Nat → Except IOError (List Nat)) (l : List Nat)
    (h : ∀ x ∈ l, ∃ e, exch x = Except.error e) :
    attemptsOf exch l = l := by
  induction l with
  | nil => rfl
  | cons d ds ih =>
      obtain ⟨e, he⟩ := h d (List.mem_cons_self d ds)
      unfold attemptsOf
      rw [he]
      rw [ih (fun x hx => h x (List.mem_cons_of_mem d hx))]

theorem firstSuccess_append
    (exch : Nat → Except IOError (List Nat)) (pre post : List Nat)
    (d : Nat) (bytes : List Nat)
    (hpre : ∀ x ∈ pre, ∃ e, exch x = Except.error e)
    (hd : exch d = Except.ok bytes) :
    firstSuccess exch (pre ++ d :: post) = some (d, bytes) := by
  induction pre with
  | nil =>
      rw [List.nil_append]
      unfold firstSuccess
      rw [hd]
  | cons p ps ih =>
      obtain ⟨e, he⟩ := hpre p (List.mem_cons_self p ps)
      rw [List.cons_append]
      unfold firstSuccess
      rw [he]
      exact ih (fun x hx => hpre x (List.mem_cons_of_mem p hx))

theorem attemptsOf_append
    (exch : Nat → Except IOError (List Nat)) (pre post : List Nat)
    (d : Nat) (bytes : List Nat)
    (hpre : ∀ x ∈ pre, ∃ e, exch x = Except.error e)
    (hd : exch d = Except.ok bytes) :
    attemptsOf exch (pre ++ d :: post) = pre ++ [d] := by
  induction pre with
  | nil =>
      rw [List.nil_append]
      unfold attemptsOf
      rw [hd]
      rfl
  | cons p ps ih =>
      obtain ⟨e, he⟩ := hpre p (List.mem_cons_self p ps)
      rw [List.cons_append]
      unfold attemptsOf
      rw [he]
      rw [ih (fun x hx => hpre x (List.mem_cons_of_mem p hx))]
      rfl

/-! ## Congruence of the body under changes of per-device error values -/

theorem firstSuccess_congr (ex1 ex2 : Nat → Except IOError (List Nat))
    (h : ∀ d, sameShape (ex1 d) (ex2 d)) (l : List Nat) :
    firstSuccess ex1 l = firstSuccess ex2 l := by
  induction l with
  | nil => rfl
  | cons d ds ih =>
      unfold firstSuccess
      rcases h d with ⟨b, h1, h2⟩ | ⟨e1, e2, h1, h2⟩
      · rw [h1, h2]
      · rw [h1, h2]
        simp [ih]

theorem attemptsOf_congr (ex1 ex2 : Nat → Except IOError (List Nat))
    (h : ∀ d, sameShape (ex1 d) (ex2 d)) (l : List Nat) :
    attemptsOf ex1 l = attemptsOf ex2 l := by
  induction l with
  | nil => rfl
  | cons d ds ih =>
      unfold attemptsOf
      rcases h d with ⟨b, h1, h2⟩ | ⟨e1, e2, h1, h2⟩
      · rw [h1, h2]
      · rw [h1, h2]
        simp [ih]

theorem runFromPass_congr (e1 e2 : BodyEnv)
    (hev : e1.events = e2.events) (hal : e1.alive = e2.alive)
    (hex : ∀ n d, sameShape (e1.exchange n d) (e2.exchange n d)) :
    ∀ fuel reg n, runFromPass e1 reg n fuel = runFromPass e2 reg n fuel := by
  intro fuel
  induction fuel with
  | zero => intro reg n; rfl
  | succ fuel ih =>
      intro reg n
      unfold runFromPass
      rw [hal, hev]
      simp only [firstSuccess_congr (e1.exchange n) (e2.exchange n) (hex n),
        attemptsOf_congr (e1.exchange n) (e2.exchange n) (hex n), ih]

/-! ## Lemmas on the orchestrator state machine -/

theorem PlatformManager.cancel_eq_of_some (s : PlatformManager) (t : Nat)
    (h : s.thread = some t) :
    PlatformManager.cancel s = ⟨none, s.loops.set t RLState.stopped⟩ := by
  unfold PlatformManager.cancel
  rw [h]

theorem PlatformManager.cancel_eq_of_none (s : PlatformManager)
    (h : s.thread = none) : PlatformManager.cancel s = s := by
  unfold PlatformManager.cancel
  rw [h]

theorem PlatformManager.cancel_thread_none (s : PlatformManager) :
    (PlatformManager.cancel s).thread = none := by
  cases h : s.thread with
  | none => rw [PlatformManager.cancel_eq_of_none s h, h]
  | some t => rw [PlatformManager.cancel_eq_of_some s t h]

theorem PlatformManager.wf_new : PlatformManager.Wf PlatformManager.new := by
  constructor
  · intro t ht
    cases ht
  · intro i hi
    simp [PlatformManager.new] at hi

theorem PlatformManager.wf_cancel (s : PlatformManager)
    (hs : PlatformManager.Wf s) :
    PlatformManager.Wf (PlatformManager.cancel s) := by
  obtain ⟨hrange, hflight⟩ := hs
  cases h : s.thread with
  | none => rw [PlatformManager.cancel_eq_of_none s h]; exact ⟨hrange, hflight⟩
  | some t =>
      rw [PlatformManager.cancel_eq_of_some s t h]
      constructor
      · intro u hu
        cases hu
      · intro i hi
        simp only at hi
        by_cases hit : t = i
        · subst hit
          rw [List.getElem?_set_eq_of_lt _ (hrange t h)] at hi
          cases hi
        · rw [List.getElem?_set_ne hit] at hi
          have hth := hflight i hi
          rw [h] at hth
          cases hth
          exact absurd rfl hit

theorem PlatformManager.no_running_of_thread_none (s : PlatformManager)
    (hs : PlatformManager.Wf s) (hn : s.thread = none) (i : Nat) :
    s.loops[i]? ≠ some RLState.running := by
  intro hi
  have hth := hs.2 i hi
  rw [hn] at hth
  cases hth

theorem PlatformManager.storeRunLoop_true (s : PlatformManager) :
    PlatformManager.storeRunLoop s true =
      ⟨some s.loops.length, s.loops ++ [RLState.running]⟩ := by
  simp [PlatformManager.storeRunLoop]

theorem PlatformManager.storeRunLoop_false (s : PlatformManager) :
    PlatformManager.storeRunLoop s false = s := by
  simp [PlatformManager.storeRunLoop]

theorem PlatformManager.wf_storeRunLoop (s : PlatformManager)
    (hs : PlatformManager.Wf s) (hn : s.thread = none) (ok : Bool) :
    PlatformManager.Wf (PlatformManager.storeRunLoop s ok) := by
  cases ok with
  | false => rw [PlatformManager.storeRunLoop_false]; exact hs
  | true =>
      rw [PlatformManager.storeRunLoop_true]
      constructor
      · intro t ht
        cases ht
        simp
      · intro i hi
        simp only at hi ⊢
        by_cases hlt : i < s.loops.length
        · rw [List.getElem?_append_left hlt] at hi
          exact absurd hi (PlatformManager.no_running_of_thread_none s hs hn i)
        · have hge : s.loops.length ≤ i := Nat.le_of_not_lt hlt
          rcases Nat.eq_or_lt_of_le hge with heq | hgt
          · rw [heq]
          · exfalso
            have hlen : (s.loops ++ [RLState.running]).length ≤ i := by
              rw [List.length_append]
              simpa using hgt
            rw [List.getElem?_eq_none hlen] at hi
            cases hi

theorem PlatformManager.wf_step (s : PlatformManager)
    (hs : PlatformManager.Wf s) (op : OpKind) :
    PlatformManager.Wf (PlatformManager.step s op) := by
  have hc := PlatformManager.wf_cancel s hs
  have hn := PlatformManager.cancel_thread_none s
  cases op with
  | reg ok => exact PlatformManager.wf_storeRunLoop _ hc hn ok
  | sg ok => exact PlatformManager.wf_storeRunLoop _ hc hn ok
  | apdu ok => exact PlatformManager.wf_storeRunLoop _ hc hn ok
  | cnl => exact hc

theorem PlatformManager.wf_runOps (ops : List OpKind) :
    PlatformManager.Wf (PlatformManager.runOps ops) := by
  unfold PlatformManager.runOps
  have h : ∀ s, PlatformManager.Wf s →
      PlatformManager.Wf (ops.foldl PlatformManager.step s) := by
    induction ops with
    | nil => intro s hs; exact hs
    | cons op rest ih =>
        intro s hs
        exact ih _ (PlatformManager.wf_step s hs op)
  exact h _ PlatformManager.wf_new

/-! ## Claim theorems -/

/-- Claim C1: for every OnceCallback and every sequence of call(result)
invocations performed through any set of handles cloned from it (all
clones share the same underlying slot), the wrapped handler is invoked
at most once in total, with the result of the first call that finds the
slot non-empty (the first call that acquires the unpoisoned lock);
every later call, and any call that finds the lock poisoned or the slot
empty, is a silent no-op: the resulting state is exactly the fresh
state with at most the one consumed invocation recorded. -/
theorem OnceCallback.handler_at_most_once
    (calls : List (Bool × Except IOError (List Nat))) :
    OnceCallback.runCalls OnceCallback.new calls =
      (match calls.find? (fun c => !c.1) with
       | some c => ⟨false, [c.2]⟩
       | none => ⟨true, []⟩) ∧
    (OnceCallback.runCalls OnceCallback.new calls).invoked.length ≤ 1 := by
  have h := OnceCallback.runCalls_slot_true calls []
  have hn : OnceCallback.new = (⟨true, []⟩ : OnceCallback) := rfl
  constructor
  · rw [hn, h]
    cases hf : calls.find? (fun c => !c.1) <;> simp
  · rw [hn, h]
    cases hf : calls.find? (fun c => !c.1) <;> simp

/-- Claim C2: every operation entry point of the orchestrator
(register, sign, send_apdu) first cancels any previously stored
Run-Loop — taking the stored handle and blocking until that Run-Loop
has fully stopped — before constructing and storing a new one; hence
across any sequence of operations at most one Run-Loop ever created by
this orchestrator instance is in the running state. -/
theorem PlatformManager.single_flight :
    (∀ (ops : List OpKind) (i j : Nat),
      (PlatformManager.runOps ops).loops[i]? = some RLState.running →
      (PlatformManager.runOps ops).loops[j]? = some RLState.running →
      i = j) ∧
    (∀ s t ok, s.thread = some t → t < s.loops.length →
      ((PlatformManager.register s ok).loops[t]? = some RLState.stopped ∧
       (PlatformManager.sign s ok).loops[t]? = some RLState.stopped ∧
       (PlatformManager.send_apdu s ok).loops[t]? = some RLState.stopped)) := by
  constructor
  · intro ops i j hi hj
    have hw := PlatformManager.wf_runOps ops
    have h1 := hw.2 i hi
    have h2 := hw.2 j hj
    rw [h1] at h2
    exact (Option.some_injective _ h2)
  · intro s t ok h ht
    have hstop : (PlatformManager.cancel s).loops[t]? = some RLState.stopped := by
      rw [PlatformManager.cancel_eq_of_some s t h]
      exact List.getElem?_set_eq_of_lt _ ht
    have hlen : t < (PlatformManager.cancel s).loops.length := by
      rw [PlatformManager.cancel_eq_of_some s t h]
      simpa using ht
    have hkeep : (PlatformManager.storeRunLoop (PlatformManager.cancel s)
        ok).loops[t]? = some RLState.stopped := by
      cases ok with
      | false => rw [PlatformManager.storeRunLoop_false]; exact hstop
      | true =>
          rw [PlatformManager.storeRunLoop_true]
          simp only
          rw [List.getElem?_append_left hlen]
          exact hstop
    exact ⟨hkeep, hkeep, hkeep⟩

theorem PlatformManager.single_flight_witness :
    (PlatformManager.register ⟨some 0, [RLState.running]⟩ true).loops[0]? =
      some RLState.stopped ∧
    PlatformManager.runOps [OpKind.reg true, OpKind.sg true] =
      ⟨some 1, [RLState.stopped, RLState.running]⟩ :=
  ⟨(PlatformManager.single_flight.2 ⟨some 0, [RLState.running]⟩ 0 true rfl
      (by decide)).1,
   by decide⟩

/-- Claim C3: for every retry pass of any operation body, on the first
device whose protocol exchange returns success, the success payload is
delivered via the callback and the body returns immediately: the trace
shows no exchange against any later device of that pass and no further
pass (no sleep, no further drain) after the delivery. -/
theorem runFromPass_first_success_wins (env : BodyEnv) (reg : List Nat)
    (n fuel : Nat) (pre post : List Nat) (d : Nat) (bytes : List Nat)
    (halive : env.alive n = true)
    (hreg : processEvents reg (env.events n) = pre ++ d :: post)
    (hpre : ∀ x ∈ pre, ∃ e, env.exchange n x = Except.error e)
    (hd : env.exchange n d = Except.ok bytes) :
    runFromPass env reg n (fuel + 1) =
      (BodyAction.drain (env.events n) ::
         ((pre ++ [d]).map BodyAction.attempt ++
          [BodyAction.deliver (Except.ok bytes)]),
       some (Except.ok bytes)) := by
  unfold runFromPass
  simp only [halive, if_true, hreg]
  rw [firstSuccess_append (env.exchange n) pre post d bytes hpre hd]
  rw [attemptsOf_append (env.exchange n) pre post d bytes hpre hd]
  rfl

theorem runFromPass_first_success_wins_witness :
    runFromPass
      ⟨Except.ok (), fun _ => [Event.add 1, Event.add 2, Event.add 3],
       fun _ d => if d = 2 then Except.ok [9]
                  else Except.error (io_err "device failed"),
       fun _ => true⟩ [] 0 1 =
      (BodyAction.drain [Event.add 1, Event.add 2, Event.add 3] ::
         ([BodyAction.attempt 1, BodyAction.attempt 2] ++
          [BodyAction.deliver (Except.ok [9])]),
       some (Except.ok [9])) :=
  runFromPass_first_success_wins _ [] 0 0 [1] [3] 2 [9] rfl rfl
    (fun x hx => ⟨io_err "device failed",
      by rcases List.mem_singleton.mp hx with rfl; rfl⟩)
    rfl

/-- Claim C4: per-device failures are absorbed silently. The trace and
the delivered outcome of the retry loop are invariant under arbitrary
changes of the per-device error values (only the success/failure shape
and the success payloads matter), so no per-device error is ever
delivered through the callback; and a failing device does not stop the
inner loop: the next device is attempted. -/
theorem runFromPass_per_device_failure_silent
    (e1 e2 : BodyEnv) (hev : e1.events = e2.events)
    (hal : e1.alive = e2.alive)
    (hex : ∀ n d, sameShape (e1.exchange n d) (e2.exchange n d))
    (exch : Nat → Except IOError (List Nat)) (d : Nat) (ds : List Nat)
    (e : IOError) (hde : exch d = Except.error e) :
    (∀ fuel reg n, runFromPass e1 reg n fuel = runFromPass e2 reg n fuel) ∧
    attemptsOf exch (d :: ds) = d :: attemptsOf exch ds ∧
    firstSuccess exch (d :: ds) = firstSuccess exch ds :=
  ⟨runFromPass_congr e1 e2 hev hal hex,
   by conv_lhs => rw [attemptsOf, hde],
   by conv_lhs => rw [firstSuccess, hde]⟩

theorem runFromPass_per_device_failure_silent_witness :
    runFromPass
      ⟨Except.ok (), fun _ => [Event.add 1],
       fun _ _ => Except.error (io_err "broken pipe"),
       fun n => decide (n = 0)⟩ [] 0 2 =
    runFromPass
      ⟨Except.ok (), fun _ => [Event.add 1],
       fun _ _ => Except.error (io_err "wrong credential"),
       fun n => decide (n = 0)⟩ [] 0 2 ∧
    attemptsOf (fun _ => Except.error (io_err "broken pipe")) [1, 2] =
      1 :: attemptsOf (fun _ => Except.error (io_err "broken pipe")) [2] :=
  ⟨(runFromPass_per_device_failure_silent
      ⟨Except.ok (), fun _ => [Event.add 1],
       fun _ _ => Except.error (io_err "broken pipe"),
       fun n => decide (n = 0)⟩
      ⟨Except.ok (), fun _ => [Event.add 1],
       fun _ _ => Except.error (io_err "wrong credential"),
       fun n => decide (n = 0)⟩
      rfl rfl
      (fun _ _ => Or.inr ⟨io_err "broken pipe", io_err "wrong credential",
        rfl, rfl⟩)
      (fun _ => Except.error (io_err "broken pipe")) 1 [2]
      (io_err "broken pipe") rfl).1 2 [] 0,
   (runFromPass_per_device_failure_silent
      ⟨Except.ok (), fun _ => [Event.add 1],
       fun _ _ => Except.error (io_err "broken pipe"),
       fun n => decide (n = 0)⟩
      ⟨Except.ok (), fun _ => [Event.add 1],
       fun _ _ => Except.error (io_err "wrong credential"),
       fun n => decide (n = 0)⟩
      rfl rfl
      (fun _ _ => Or.inr ⟨io_err "broken pipe", io_err "wrong credential",
        rfl, rfl⟩)
      (fun _ => Except.error (io_err "broken pipe")) 1 [2]
      (io_err "broken pipe") rfl).2.1⟩

/-- Claim C5: if setup fails, the operation delivers exactly one
failure immediately and performs no retry pass: on
`Monitor::new()` failure the body delivers that error and exits at once
(the trace is the single delivery — no drain, no attempt, no sleep);
on `RunLoop::new` failure the couldn\x27t-create-runloop failure is
delivered through the cloned callback handle. -/
theorem runBody_setup_failure_immediate (env rlEnv : BodyEnv)
    (e : IOError) (fuel fuel2 : Nat)
    (hm : env.monitorNew = Except.error e) :
    runBody env fuel =
      ([BodyAction.deliver (Except.error e)], some (Except.error e)) ∧
    deliversOf (runBody env fuel).1 = [Except.error e] ∧
    registerDeliveries false rlEnv fuel2 =
      [Except.error (io_err "couldn\x27t create runloop")] := by
  have h1 : runBody env fuel =
      ([BodyAction.deliver (Except.error e)], some (Except.error e)) := by
    unfold runBody
    rw [hm]
  refine ⟨h1, ?_, rfl⟩
  rw [h1]
  rfl

theorem runBody_setup_failure_immediate_witness :
    runBody
      ⟨Except.error (io_err "udev unavailable"), fun _ => [],
       fun _ _ => Except.error (io_err "x"), fun _ => false⟩ 3 =
      ([BodyAction.deliver (Except.error (io_err "udev unavailable"))],
       some (Except.error (io_err "udev unavailable"))) ∧
    registerDeliveries false
      ⟨Except.ok (), fun _ => [], fun _ _ => Except.error (io_err "x"),
       fun _ => false⟩ 3 =
      [Except.error (io_err "couldn\x27t create runloop")] :=
  ⟨(runBody_setup_failure_immediate
      ⟨Except.error (io_err "udev unavailable"), fun _ => [],
       fun _ _ => Except.error (io_err "x"), fun _ => false⟩
      ⟨Except.ok (), fun _ => [], fun _ _ => Except.error (io_err "x"),
       fun _ => false⟩ (io_err "udev unavailable") 3 3 rfl).1,
   (runBody_setup_failure_immediate
      ⟨Except.error (io_err "udev unavailable"), fun _ => [],
       fun _ _ => Except.error (io_err "x"), fun _ => false⟩
      ⟨Except.ok (), fun _ => [], fun _ _ => Except.error (io_err "x"),
       fun _ => false⟩ (io_err "udev unavailable") 3 3 rfl).2.2⟩

/-- Claim C6: when the retry loop exits because `alive()` became false,
the body delivers the single failure `io_err "cancelled or timed out"` —
a constant independent of the environment, so explicit cancellation and
deadline elapse (both of which make the spec-modelled aliveness
predicate false) produce the same, indistinguishable failure
classification. -/
theorem runFromPass_cancelled_or_timed_out (env : BodyEnv)
    (reg : List Nat) (n fuel : Nat) (cr : Bool) (el tm : Nat)
    (hdead : env.alive n = false) :
    runFromPass env reg n (fuel + 1) =
      ([BodyAction.deliver (Except.error (io_err "cancelled or timed out"))],
       some (Except.error (io_err "cancelled or timed out"))) ∧
    aliveOf true el tm = false ∧
    (tm ≤ el → aliveOf cr el tm = false) := by
  refine ⟨?_, by simp [aliveOf], fun h => by simp [aliveOf, Nat.not_lt.mpr h]⟩
  unfold runFromPass
  simp [hdead]

theorem runFromPass_cancelled_or_timed_out_witness :
    runFromPass
      ⟨Except.ok (), fun _ => [], fun _ _ => Except.error (io_err "x"),
       fun _ => false⟩ [] 0 1 =
      ([BodyAction.deliver (Except.error (io_err "cancelled or timed out"))],
       some (Except.error (io_err "cancelled or timed out"))) ∧
    aliveOf true 3 10 = false ∧
    aliveOf false 10 10 = false :=
  ⟨(runFromPass_cancelled_or_timed_out
      ⟨Except.ok (), fun _ => [], fun _ _ => Except.error (io_err "x"),
       fun _ => false⟩ [] 0 0 false 3 10 rfl).1,
   (runFromPass_cancelled_or_timed_out
      ⟨Except.ok (), fun _ => [], fun _ _ => Except.error (io_err "x"),
       fun _ => false⟩ [] 0 0 false 3 10 rfl).2.1,
   (runFromPass_cancelled_or_timed_out
      ⟨Except.ok (), fun _ => [], fun _ _ => Except.error (io_err "x"),
       fun _ => false⟩ [] 0 0 false 10 10 rfl).2.2 (by decide)⟩

/-- Claim C7: every retry pass follows the fixed step order — one drain
of the whole pending event batch into the registry (never interleaved
with device iteration), then the exchange attempts on the devices now
in the registry, then, when no device succeeded, a single fixed 100 ms
sleep before the next pass re-checks `alive()`. -/
theorem runFromPass_pass_order (env : BodyEnv) (reg : List Nat)
    (n fuel : Nat) (halive : env.alive n = true)
    (hfail : ∀ x ∈ processEvents reg (env.events n),
      ∃ e, env.exchange n x = Except.error e) :
    runFromPass env reg n (fuel + 1) =
      (BodyAction.drain (env.events n) ::
         ((processEvents reg (env.events n)).map BodyAction.attempt ++
          BodyAction.sleepMs 100 ::
            (runFromPass env (processEvents reg (env.events n))
              (n + 1) fuel).1),
       (runFromPass env (processEvents reg (env.events n))
         (n + 1) fuel).2) := by
  conv_lhs => rw [runFromPass]
  simp only [halive, if_true]
  rw [firstSuccess_eq_none_of_all_fail (env.exchange n) _ hfail]
  rw [attemptsOf_eq_self_of_all_fail (env.exchange n) _ hfail]
  rfl

theorem runFromPass_pass_order_witness :
    runFromPass
      ⟨Except.ok (), fun _ => [Event.add 7],
       fun _ _ => Except.error (io_err "no response"),
       fun n => decide (n = 0)⟩ [] 0 2 =
      (BodyAction.drain [Event.add 7] ::
         ([BodyAction.attempt 7] ++ BodyAction.sleepMs 100 ::
           [BodyAction.deliver
             (Except.error (io_err "cancelled or timed out"))]),
       some (Except.error (io_err "cancelled or timed out"))) :=
  runFromPass_pass_order
    ⟨Except.ok (), fun _ => [Event.add 7],
     fun _ _ => Except.error (io_err "no response"),
     fun n => decide (n = 0)⟩ [] 0 1 rfl
    (fun _ _ => ⟨io_err "no response", rfl⟩)

/-! ## Equations for the sign loop instrumentation -/

theorem signCalls_cons_ok
    (u2fSign : Nat → List Nat → List Nat → List Nat →
      Except IOError (List Nat))
    (ch app kh : List Nat) (d : Nat) (ds : List Nat) (b : List Nat)
    (h : u2fSign d ch app kh = Except.ok b) :
    signCalls u2fSign ch app kh (d :: ds) = [(d, ch, app, kh)] := by
  conv_lhs => rw [signCalls, h]

theorem signCalls_cons_error
    (u2fSign : Nat → List Nat → List Nat → List Nat →
      Except IOError (List Nat))
    (ch app kh : List Nat) (d : Nat) (ds : List Nat) (e : IOError)
    (h : u2fSign d ch app kh = Except.error e) :
    signCalls u2fSign ch app kh (d :: ds) =
      (d, ch, app, kh) :: signCalls u2fSign ch app kh ds := by
  conv_lhs => rw [signCalls, h]

/-- Claim C8: during a sign pass the orchestrator attempts the sign
exchange directly with the caller-supplied key_handle on every device
it reaches, without any local pre-validation or pre-filtering of
devices by key-handle ownership: each recorded `u2f_sign` call carries
the caller's arguments verbatim, the devices called agree exactly with
the generic inner loop's attempts, and when no device succeeds every
device of the registry is called. -/
theorem sign_no_prefilter
    (u2fSign : Nat → List Nat → List Nat → List Nat →
      Except IOError (List Nat))
    (challenge application key_handle : List Nat) (devs : List Nat) :
    (∀ c ∈ signCalls u2fSign challenge application key_handle devs,
       c.2 = (challenge, application, key_handle)) ∧
    ((signCalls u2fSign challenge application key_handle devs).map
        Prod.fst =
      attemptsOf (signExchangeOf u2fSign challenge application key_handle)
        devs) ∧
    ((∀ d ∈ devs, ∃ e,
        u2fSign d challenge application key_handle = Except.error e) →
      (signCalls u2fSign challenge application key_handle devs).map
          Prod.fst = devs) := by
  refine ⟨?_, ?_, ?_⟩
  · induction devs with
    | nil => intro c hc; cases hc
    | cons d ds ih =>
        intro c hc
        cases h : u2fSign d challenge application key_handle with
        | ok b =>
            rw [signCalls_cons_ok u2fSign challenge application key_handle
              d ds b h] at hc
            rcases List.mem_singleton.mp hc with rfl
            rfl
        | error e =>
            rw [signCalls_cons_error u2fSign challenge application
              key_handle d ds e h] at hc
            rcases List.mem_cons.mp hc with rfl | hc2
            · rfl
            · exact ih c hc2
  · induction devs with
    | nil => rfl
    | cons d ds ih =>
        cases h : u2fSign d challenge application key_handle with
        | ok b =>
            have hx : signExchangeOf u2fSign challenge application
                key_handle d = Except.ok b := h
            rw [signCalls_cons_ok u2fSign challenge application key_handle
              d ds b h]
            conv_rhs => rw [attemptsOf, hx]
            rfl
        | error e =>
            have hx : signExchangeOf u2fSign challenge application
                key_handle d = Except.error e := h
            rw [signCalls_cons_error u2fSign challenge application
              key_handle d ds e h]
            conv_rhs => rw [attemptsOf, hx]
            simp [ih]
  · induction devs with
    | nil => intro hfail; rfl
    | cons d ds ih =>
        intro hfail
        obtain ⟨e, he⟩ := hfail d (List.mem_cons_self d ds)
        rw [signCalls_cons_error u2fSign challenge application key_handle
          d ds e he]
        have hds := ih (fun x hx => hfail x (List.mem_cons_of_mem d hx))
        simp [hds]

theorem sign_no_prefilter_witness :
    (signCalls (fun _ _ _ _ => Except.error (io_err "wrong key"))
        [1] [2] [3] [4, 5]).map Prod.fst = [4, 5] :=
  (sign_no_prefilter (fun _ _ _ _ => Except.error (io_err "wrong key"))
    [1] [2] [3] [4, 5]).2.2
    (fun _ _ => ⟨io_err "wrong key", rfl⟩)

/-- Claim C9: `from_unix_result rv` returns the I/O error built from
the current OS errno exactly when `rv` is negative according to the
`Signed` trait, and returns `Ok rv` with `rv` unchanged otherwise. -/
theorem from_unix_result_err_iff_negative {α : Type} (S : Signed α)
    (errno : Int) (rv : α) :
    (from_unix_result S errno rv =
        Except.error (IOError.fromRawOsError errno) ↔
      S.is_negative rv = true) ∧
    (S.is_negative rv = false →
      from_unix_result S errno rv = Except.ok rv) := by
  cases h : S.is_negative rv <;> simp [from_unix_result, h]

theorem from_unix_result_err_iff_negative_witness :
    from_unix_result signedI32 13 (-2 : Int) =
      Except.error (IOError.fromRawOsError 13) ∧
    from_unix_result signedI32 13 (5 : Int) = Except.ok 5 :=
  ⟨(from_unix_result_err_iff_negative signedI32 13 (-2)).1.mpr (by decide),
   (from_unix_result_err_iff_negative signedI32 13 5).2 (by decide)⟩

theorem usizeAsIsize_neg_iff (w v : Nat) (_hw : 1 ≤ w) (hv : v < 2 ^ w) :
    usizeAsIsize w v < 0 ↔ 2 ^ (w - 1) ≤ v := by
  unfold usizeAsIsize
  split
  · rename_i h
    constructor
    · intro h0
      exact absurd h0 (Int.not_lt.mpr (Int.natCast_nonneg v))
    · intro h0
      exact absurd h0 (Nat.not_le.mpr h)
  · rename_i h
    have hlt : (v : Int) < (2 : Int) ^ w := by exact_mod_cast hv
    constructor
    · intro _
      exact Nat.le_of_not_lt h
    · intro _
      linarith

/-- Claim C10: for a usize value `v` on a `w`-bit word, the `Signed`
implementation reinterprets `v` as a signed machine integer, so
`is_negative v` holds exactly when `v ≥ 2^(w-1)`; consequently
`from_unix_result` applied to such a large usize classifies it as an OS
error even though a usize can never be a negative return code. -/
theorem usize_is_negative_iff_msb (w v : Nat) (errno : Int)
    (hw : 1 ≤ w) (hv : v < 2 ^ w) :
    ((signedUsize w).is_negative v = true ↔ 2 ^ (w - 1) ≤ v) ∧
    (2 ^ (w - 1) ≤ v →
      from_unix_result (signedUsize w) errno v =
        Except.error (IOError.fromRawOsError errno)) := by
  have hiff := usizeAsIsize_neg_iff w v hw hv
  constructor
  · simpa [signedUsize] using hiff
  · intro hv2
    have hneg : (signedUsize w).is_negative v = true := by
      simpa [signedUsize] using hiff.mpr hv2
    simp [from_unix_result, hneg]

theorem usize_is_negative_iff_msb_witness :
    (signedUsize 8).is_negative 200 = true ∧
    from_unix_result (signedUsize 8) 5 200 =
      Except.error (IOError.fromRawOsError 5) :=
  ⟨(usize_is_negative_iff_msb 8 200 5 (by decide) (by decide)).1.mpr
      (by decide),
   (usize_is_negative_iff_msb 8 200 5 (by decide) (by decide)).2
      (by decide)⟩
